import Mathlib

/-!
Verification of the unprint scraping library (main module of the repository)
against its natural-language specification.

The JavaScript source is shallowly embedded: JS strings become Lean strings
(manipulated through their character lists), JS numbers relevant to the
claims become Nat / Int / Rat, absent object properties and null/undefined
become Option.none, and JS truthiness is modelled explicitly (empty string,
0, null, undefined are falsy).  External collaborators (the DOM engine, the
HTTP transport, the WHATWG URL parser, the moment date parser and the host
regular-expression engine for caller-supplied patterns) are treated as
oracles: either parameters of the embedded functions or small models that
are faithful on the inputs exercised here, as documented on each definition.
-/

namespace Unprint

/-- Characters matched by the JavaScript whitespace class as used by the
library (space, tab, newline, carriage return, vertical tab, form feed). -/
def isJsSpace (c : Char) : Bool :=
  c = ' ' || c = '\t' || c = '\n' || c = '\r' || c = '\x0b' || c = '\x0c'

/-- Collapse of consecutive space characters into a single space. -/
def squeezeSpaces : List Char → List Char
  | [] => []
  | c :: cs =>
    match squeezeSpaces cs with
    | [] => [c]
    | d :: ds => if c = ' ' && d = ' ' then d :: ds else c :: d :: ds

/-- Embedding of the source function trim: String.prototype.trim followed by
replacing every whitespace run with a single space (part_000 lines 60-66). -/
def jsTrimChars (l : List Char) : List Char :=
  let t := ((l.dropWhile isJsSpace).reverse.dropWhile isJsSpace).reverse
  squeezeSpaces (t.map (fun c => if isJsSpace c then ' ' else c))

/-- String wrapper for jsTrimChars. -/
def jsTrim (s : String) : String :=
  String.mk (jsTrimChars s.data)

/-- JavaScript truthiness of a nullable string: null, undefined and the empty
string are falsy. -/
def truthyStr (s : Option String) : Bool :=
  match s with
  | none => false
  | some v => v ≠ ""

/-- JavaScript truthiness of a nullable boolean option value. -/
def truthyB (b : Option Bool) : Bool :=
  b = some true

/-- JavaScript truthiness of a nullable natural number (0 is falsy). -/
def truthyN (n : Option Nat) : Bool :=
  match n with
  | none => false
  | some v => v ≠ 0

/-- JavaScript logical-or on nullable strings: the first operand is returned
when truthy, otherwise the second. -/
def jsOrStr (a b : Option String) : Option String :=
  if truthyStr a then a else b

/-- Right-biased merge of two optional fields, the semantics of a later
object-spread entry overriding an earlier one for a single key. -/
def mergeField {α : Type} (a b : Option α) : Option α :=
  match b with
  | some v => some v
  | none => a

/-- Anchored regular-expression test against the start of a string, the
semantics of the /^pat/ tests in the source for literal patterns. -/
def startsWithChars (pat : List Char) (s : String) : Bool :=
  pat.isPrefixOf s.data

/-- Embedding of the source function prefixUrl (part_000 lines 367-405).

The urlPath argument is the raw fragment; originUrl is the optional origin
(absent or empty string are both falsy, as in JS); protocolOpt is the
resolved protocol option, where the source computes
options = spread of the default protocol https and the custom options, so the
default resolved value is some https and an explicitly nullified protocol is
none.  The branches taken when an origin is present parse it with the WHATWG
URL collaborator, modelled by parseUrlOriginProtocol below; an unparsable
origin, on which the collaborator throws, is modelled as a none result. -/
def parseUrlOriginProtocol (originUrl : String) : Option (String × String) :=
  match originUrl.splitOn "://" with
  | scheme :: rest :: _ =>
    let authority := String.mk (rest.data.takeWhile (fun c => c ≠ '/' && c ≠ '?' && c ≠ '#'))
    some (scheme ++ "://" ++ authority, scheme ++ ":")
  | _ => none

/-- Removal of a single trailing colon, the source expression
protocol.replace of a colon-at-end with the empty string. -/
def stripTrailingColon (s : String) : String :=
  match s.data.reverse with
  | ':' :: rest => String.mk rest.reverse
  | _ => s

/-- Removal of all trailing slashes, the source expression
originUrl.replace of trailing slashes with the empty string. -/
def stripTrailingSlashes (s : String) : String :=
  String.mk (s.data.reverse.dropWhile (fun c => c = '/')).reverse

def prefixUrl (urlPath : String) (originUrl : Option String) (protocolOpt : Option String) : Option String :=
  if urlPath = "" then none
  else if startsWithChars ['h', 't', 't', 'p'] urlPath then some urlPath
  else if truthyStr protocolOpt && startsWithChars ['/', '/'] urlPath then
    some (stripTrailingColon (protocolOpt.getD "") ++ ":" ++ urlPath)
  else if !truthyStr originUrl then some urlPath
  else
    match parseUrlOriginProtocol (originUrl.getD "") with
    | none => none
    | some (origin, protocol) =>
      if protocol ≠ "" && startsWithChars ['/', '/'] urlPath then some (protocol ++ urlPath)
      else if startsWithChars ['/'] urlPath then some (origin ++ urlPath)
      else if startsWithChars ['.', '/'] urlPath then
        some (stripTrailingSlashes (originUrl.getD "") ++ String.mk urlPath.data.tail)
      else some (origin ++ "/" ++ urlPath)

/-- A string starting with two slashes does not start with the letters http. -/
theorem startsSlashSlash_not_http (path : String) (hs : startsWithChars ['/', '/'] path = true) :
    startsWithChars ['h', 't', 't', 'p'] path = false := by
  unfold startsWithChars at hs ⊢
  cases hd : path.data with
  | nil => rw [hd] at hs; simp [List.isPrefixOf] at hs
  | cons c cs =>
    rw [hd] at hs
    rw [List.isPrefixOf_cons₂] at hs
    have h1 : ('/' == c) = true := ((Bool.and_eq_true _ _).mp hs).1
    have hc : c = '/' := (beq_iff_eq.mp h1).symm
    rw [List.isPrefixOf_cons₂, hc]
    simp

/-- C8 counterexample: with no origin supplied and the default protocol
option, a protocol-relative fragment is not returned unchanged; the
configured protocol is prepended instead (the protocol-relative branch of
prefixUrl precedes the no-origin early return). -/
theorem prefixUrl_no_origin_protocol_relative_counterexample :
    prefixUrl "//cdn.example.com/x" none (some "https") = some "https://cdn.example.com/x" ∧
    prefixUrl "//cdn.example.com/x" none (some "https") ≠ some "//cdn.example.com/x" := by
  constructor
  · rfl
  · decide

/-- C8 amended: with no origin supplied and the default protocol option, a
truthy fragment is returned unchanged unless it is protocol-relative, in
which case the default protocol and a colon are prepended. -/
theorem prefixUrl_no_origin (path : String) (h : path ≠ "") :
    (startsWithChars ['/', '/'] path = false → prefixUrl path none (some "https") = some path) ∧
    (startsWithChars ['/', '/'] path = true → prefixUrl path none (some "https") = some ("https:" ++ path)) := by
  constructor
  · intro hs
    by_cases hh : startsWithChars ['h', 't', 't', 'p'] path = true
    · simp [prefixUrl, h, hh]
    · simp [prefixUrl, h, hs, hh, truthyStr]
  · intro hs
    have hh := startsSlashSlash_not_http path hs
    simp [prefixUrl, h, hs, hh, truthyStr, stripTrailingColon]

/-- C8 witness: the amended no-origin behavior evaluated on the plain
fragment a.jpg, which is returned unchanged. -/
theorem prefixUrl_no_origin_witness :
    ("a.jpg" ≠ "") ∧
    ((startsWithChars ['/', '/'] "a.jpg" = false → prefixUrl "a.jpg" none (some "https") = some "a.jpg") ∧
     (startsWithChars ['/', '/'] "a.jpg" = true → prefixUrl "a.jpg" none (some "https") = some ("https:" ++ "a.jpg"))) :=
  ⟨by decide, prefixUrl_no_origin "a.jpg" (by decide)⟩

/-- Replacement of the first comma of a character list, the semantics of the
JavaScript String.prototype.replace called with the one-character string
pattern: only the first occurrence is replaced. -/
def replaceFirstComma (repl : List Char) : List Char → List Char
  | [] => []
  | c :: cs => if c = ',' then repl ++ cs else c :: replaceFirstComma repl cs

/-- Replacement of every comma of a character list; this is what the spec
describes and is used for the refinement comparison with the source. -/
def replaceAllComma (repl : List Char) : List Char → List Char
  | [] => []
  | c :: cs => if c = ',' then repl ++ replaceAllComma repl cs else c :: replaceAllComma repl cs

/-- Digit test matching the regular-expression digit class. -/
def isDigitCh (c : Char) : Bool :=
  c.isDigit

/-- Match of the default number pattern, digits optionally followed by a
decimal or comma separator and more digits, anchored at a position whose
first character is a digit; returns the whole match and the optional first
capture group, mirroring the backtracking-free behavior of the pattern. -/
def matchNumberAt (l : List Char) : List Char × Option (List Char) :=
  let ds := l.takeWhile isDigitCh
  let rest := l.drop ds.length
  match rest with
  | sep :: r2 =>
    if (sep = '.' || sep = ',') && (match r2 with | c :: _ => isDigitCh c | [] => false) then
      let ds2 := r2.takeWhile isDigitCh
      (ds ++ sep :: ds2, some (sep :: ds2))
    else (ds, none)
  | [] => (ds, none)

/-- Leftmost match of the default number pattern over a whole string,
modelling the host regular-expression engine on this fixed pattern. -/
def findNumberMatch : List Char → Option (List Char × Option (List Char))
  | [] => none
  | c :: cs => if isDigitCh c then some (matchNumberAt (c :: cs)) else findNumberMatch cs

/-- Indexing into the JavaScript match array for the default number pattern:
index 0 is the whole match, index 1 the capture group (undefined when the
group did not participate), larger indices are undefined. -/
def matchGet (m : List Char × Option (List Char)) (idx : Nat) : Option (List Char) :=
  match idx with
  | 0 => some m.fst
  | 1 => m.snd
  | _ => none

/-- Value of a digit list read in base ten. -/
def digitsToNat (l : List Char) : Nat :=
  l.foldl (fun a c => a * 10 + (c.toNat - 48)) 0

/-- Conversion of the strings produced by the default number pattern by the
JavaScript Number function, as an exact rational; on the shapes reachable
here (digit runs optionally joined by one dot or comma, possibly with a
leading dot from the capture group) this agrees with Number up to rounding,
and a string containing a comma or a second dot is NaN, modelled as none. -/
def jsToNumberQ (l : List Char) : Option ℚ :=
  let intPart := l.takeWhile (fun c => c ≠ '.')
  let rest := l.drop intPart.length
  match rest with
  | [] => if intPart ≠ [] && intPart.all isDigitCh then some (digitsToNat intPart) else none
  | _ :: frac =>
    if frac ≠ [] && intPart.all isDigitCh && frac.all isDigitCh then
      some ((digitsToNat intPart : ℚ) + (digitsToNat frac : ℚ) / ((10 : ℚ) ^ frac.length))
    else none

/-- Options of the number extractor that the claims exercise.  The source
default for the separator is the dot and for matchIndex zero; the match
option is fixed to the built-in default pattern defaultNumberRegexp, since a
caller-supplied pattern runs on the host regular-expression engine, an
external collaborator outside this embedding. -/
structure NumOpts where
  separator : Option String := none
  matchIndex : Option Nat := none

/-- Embedding of the source function extractNumber (part_000 lines 240-277)
with the built-in default match pattern.  With a comma separator the first
comma becomes a dot, otherwise the first comma is removed (the source calls
String.prototype.replace with a string pattern, which replaces only the
first occurrence); then the default pattern is applied, the match-array
entry at matchIndex is converted by Number, and NaN yields null.  The
branch of the source taken when the match option is nullified is
unreachable with the default pattern and is not represented. -/
def extractNumber (raw : String) (opts : NumOpts) : Option ℚ :=
  if raw = "" then none
  else
    let sep := opts.separator.getD "."
    let numberChars := if sep = "," then replaceFirstComma ['.'] raw.data else replaceFirstComma [] raw.data
    if numberChars ≠ [] then
      match findNumberMatch numberChars with
      | none => none
      | some m =>
        match matchGet m (opts.matchIndex.getD 0) with
        | none => none
        | some numStr => jsToNumberQ numStr
    else none

/-- Modelled from the spec: number extraction as the specification words it,
where with a dot separator every comma is removed and with a comma separator
every comma becomes a decimal point, followed by the same default pattern,
matchIndex selection and numeric check.  Used only to compare the source
behavior against the claim. -/
def specNumberExtract (raw : String) (opts : NumOpts) : Option ℚ :=
  if raw = "" then none
  else
    let sep := opts.separator.getD "."
    let numberChars := if sep = "," then replaceAllComma ['.'] raw.data else replaceAllComma [] raw.data
    if numberChars ≠ [] then
      match findNumberMatch numberChars with
      | none => none
      | some m =>
        match matchGet m (opts.matchIndex.getD 0) with
        | none => none
        | some numStr => jsToNumberQ numStr
    else none

/-- Comma count of a cons cell, phrased on the head character. -/
theorem countCommaCons (c : Char) (cs : List Char) :
    List.count ',' (c :: cs) = List.count ',' cs + (if c = ',' then 1 else 0) := by
  rw [List.count_cons]
  by_cases hc : c = ',' <;> simp [hc]

/-- Replacement of commas leaves a comma-free list unchanged. -/
theorem replaceAllComma_no_comma (repl : List Char) (l : List Char) (h : l.count ',' = 0) :
    replaceAllComma repl l = l := by
  induction l with
  | nil => rfl
  | cons c cs ih =>
    rw [countCommaCons] at h
    by_cases hc : c = ','
    · rw [if_pos hc] at h
      exact (Nat.succ_ne_zero _ h).elim
    · rw [if_neg hc] at h
      simp [replaceAllComma, hc, ih (by omega)]

/-- On a list with at most one comma, first-occurrence replacement and
every-occurrence replacement agree. -/
theorem replaceFirstComma_eq_all (repl : List Char) (l : List Char) (h : l.count ',' ≤ 1) :
    replaceFirstComma repl l = replaceAllComma repl l := by
  induction l with
  | nil => rfl
  | cons c cs ih =>
    rw [countCommaCons] at h
    by_cases hc : c = ','
    · rw [if_pos hc] at h
      have h0 : cs.count ',' = 0 := by omega
      simp [replaceFirstComma, replaceAllComma, hc, replaceAllComma_no_comma repl cs h0]
    · rw [if_neg hc] at h
      simp [replaceFirstComma, replaceAllComma, hc, ih (by omega)]

/-- C7 counterexample: on an input with two commas and the default options,
the source removes only the first comma, the default pattern then matches a
string still containing a comma, Number yields NaN and the extractor
returns null, while the specified every-comma stripping would return the
number 1234567. -/
theorem extractNumber_two_commas_counterexample :
    extractNumber "1,234,567" {} = none ∧
    specNumberExtract "1,234,567" {} = some 1234567 := by
  constructor
  · decide
  · decide

/-- C7 amended: the separator handling replaces only the first comma (the
source uses String.prototype.replace with a string pattern), so on every
input containing at most one comma the extractor behaves exactly as the
claim states: separator-directed comma handling, default integer-or-decimal
pattern, capture-array entry at matchIndex, null when not numeric. -/
theorem extractNumber_single_comma (raw : String) (opts : NumOpts)
    (h : raw.data.count ',' ≤ 1) :
    extractNumber raw opts = specNumberExtract raw opts := by
  unfold extractNumber specNumberExtract
  rw [replaceFirstComma_eq_all ['.'] raw.data h, replaceFirstComma_eq_all [] raw.data h]

/-- C7 witness: the amended statement evaluated on a price string with one
comma, where both the source and the specified behavior yield 1234.56. -/
theorem extractNumber_single_comma_witness :
    ("Price: 1,234.56 USD".data.count ',' ≤ 1) ∧
    extractNumber "Price: 1,234.56 USD" {} = specNumberExtract "Price: 1,234.56 USD" {} :=
  ⟨by decide, extractNumber_single_comma "Price: 1,234.56 USD" {} (by decide)⟩

/-- Parsed source-set candidate as produced by the srcset collaborator
package: a URL with at most one of a width, height or density descriptor. -/
structure SrcSource where
  url : String
  width : Option Nat := none
  height : Option Nat := none
  density : Option String := none
  deriving DecidableEq

/-- Source-set entry after the map step of extractSourceSet: the parsed
fields plus the classified descriptor and the origin-prefixed URL. -/
structure SrcEntry where
  url : String
  width : Option Nat := none
  height : Option Nat := none
  density : Option String := none
  descriptor : String
  deriving DecidableEq

/-- Embedding of the source function getSourceSetDescriptor (part_000 lines
484-498); note the source renders a height descriptor with the letter w as
well. -/
def getSourceSetDescriptor (s : SrcSource) : String :=
  if truthyN s.width then toString (s.width.getD 0) ++ "w"
  else if truthyN s.height then toString (s.height.getD 0) ++ "w"
  else if truthyStr s.density then (s.density.getD "") ++ "x"
  else "fallback"

/-- Split of a character list at comma characters. -/
def splitOnCommaChars : List Char → List (List Char)
  | [] => [[]]
  | c :: cs =>
    let r := splitOnCommaChars cs
    if c = ',' then [] :: r
    else
      match r with
      | [] => [[c]]
      | w :: ws => (c :: w) :: ws

/-- Split of a character list at whitespace characters. -/
def splitWsChars : List Char → List (List Char)
  | [] => [[]]
  | c :: cs =>
    let r := splitWsChars cs
    if isJsSpace c then [] :: r
    else
      match r with
      | [] => [[c]]
      | w :: ws => (c :: w) :: ws

/-- Parse of one comma-separated source-set candidate: the first
whitespace-separated token is the URL, an optional second token is a width
(digits then w), height (digits then h) or density (text then x)
descriptor.  This models the srcset collaborator package on well-formed
source sets whose URLs contain no commas; malformed descriptors, on which
the collaborator throws, yield none and are not exercised here. -/
def parseCandidate (seg : List Char) : Option SrcSource :=
  match (splitWsChars seg).filter (fun w => w ≠ []) with
  | [] => none
  | u :: rest =>
    match rest with
    | [] => some { url := String.mk u }
    | d :: _ =>
      match d.reverse with
      | 'w' :: ds =>
        if ds ≠ [] && ds.all isDigitCh then
          some { url := String.mk u, width := some (digitsToNat ds.reverse) }
        else none
      | 'h' :: ds =>
        if ds ≠ [] && ds.all isDigitCh then
          some { url := String.mk u, height := some (digitsToNat ds.reverse) }
        else none
      | 'x' :: ds =>
        if ds ≠ [] then some { url := String.mk u, density := some (String.mk ds.reverse) }
        else none
      | _ => none

/-- Parse of a whole source-set attribute string, candidate per comma. -/
def srcsetParse (s : String) : List SrcSource :=
  ((splitOnCommaChars s.data).map parseCandidate).filterMap id

/-- Access to the description property used by the sort comparator of
extractSourceSet.  The mapped objects carry a descriptor property set by
getSourceSetDescriptor but never a description property, so in JavaScript
the comparator's read of sourceB.description always yields undefined; the
embedding makes that explicit. -/
def srcDescription (_ : SrcEntry) : Option String :=
  none

/-- Embedding of the sort comparator of extractSourceSet (part_000 lines
518-544): a sort:false option makes everything compare equal, then the
dead description check, then descending width when both entries carry
truthy widths, then descending height when both carry truthy heights. -/
def srcCompare (sortFalse : Bool) (a b : SrcEntry) : Int :=
  if sortFalse then 0
  else if srcDescription b = some "fallback" then -1
  else if truthyN a.width && truthyN b.width && decide (a.width.getD 0 > b.width.getD 0) then -1
  else if truthyN a.height && truthyN b.height && decide (a.height.getD 0 > b.height.getD 0) then -1
  else if truthyN a.width && truthyN b.width && decide (a.width.getD 0 < b.width.getD 0) then 1
  else if truthyN a.height && truthyN b.height && decide (a.height.getD 0 < b.height.getD 0) then 1
  else 0

/-- Stable insertion of one element with respect to a JavaScript sort
comparator: the element lands before the first resident the comparator
places it strictly before, and after residents it compares equal to. -/
def jsInsert {α : Type} (cmp : α → α → Int) (x : α) : List α → List α
  | [] => [x]
  | y :: ys => if cmp x y < 0 then x :: y :: ys else y :: jsInsert cmp x ys

/-- Model of Array.prototype.sort with a comparator: a stable sort, as
required since ES2019.  When the comparator is not a consistent total
preorder the resulting order is implementation-defined; on the inputs used
in this file every stable algorithm, including the TimSort of the major
engines, agrees with left-to-right stable insertion. -/
def jsArraySort {α : Type} (cmp : α → α → Int) (l : List α) : List α :=
  l.foldl (fun acc x => jsInsert cmp x acc) []

/-- Map step of extractSourceSet: entries with a truthy URL receive their
descriptor and an origin-prefixed URL, the rest become null and are
filtered out.  The protocol argument the source passes to prefixUrl is
customOptions.protocol used as an options object; spreading a string or
undefined over the defaults leaves the default https protocol in place. -/
def toSrcEntry (origin : Option String) (s : SrcSource) : Option SrcEntry :=
  if s.url ≠ "" then
    match prefixUrl s.url origin (some "https") with
    | some u =>
      some { url := u, width := s.width, height := s.height, density := s.density,
             descriptor := getSourceSetDescriptor s }
    | none => none
  else none

/-- Parsed, mapped and filtered entries of extractSourceSet before sorting. -/
def srcEntries (sourceSet : String) (origin : Option String) : List SrcEntry :=
  (srcsetParse sourceSet).filterMap (toSrcEntry origin)

/-- Value of the sources local of extractSourceSet: the entries after the
comparator sort. -/
def extractSourceSetSources (sourceSet : String) (origin : Option String) (sortFalse : Bool) : List SrcEntry :=
  jsArraySort (srcCompare sortFalse) (srcEntries sourceSet origin)

/-- Return value of extractSourceSet: entry records when includeDescriptor
is set, otherwise plain URLs; either way each URL passes through prefixUrl
once more with no origin. -/
inductive SrcOutput where
  | urls (us : List (Option String))
  | entries (es : List SrcEntry)
  deriving DecidableEq

/-- Embedding of the source function extractSourceSet (part_000 lines
500-554). -/
def extractSourceSet (sourceSet : String) (origin : Option String)
    (includeDescriptor sortFalse : Bool) : Option SrcOutput :=
  if sourceSet = "" then none
  else
    let sources := extractSourceSetSources sourceSet origin sortFalse
    if includeDescriptor then
      some (SrcOutput.entries (sources.map (fun s =>
        { s with url := (prefixUrl s.url none (some "https")).getD s.url })))
    else
      some (SrcOutput.urls (sources.map (fun s => prefixUrl s.url none (some "https"))))

/-- Entry carrying a truthy width and no height, the shape produced by a
source set that uses only width descriptors. -/
def goodW (e : SrcEntry) : Prop :=
  truthyN e.width = true ∧ e.height = none

instance (e : SrcEntry) : Decidable (goodW e) := by
  unfold goodW
  infer_instance

/-- Truthiness of an absent numeric property. -/
theorem truthyN_none_eq : truthyN none = false :=
  rfl

/-- On width-only entries the comparator orders strictly by descending
width. -/
theorem srcCompare_lt_iff (x y : SrcEntry) (hx : goodW x) (hy : goodW y) :
    (srcCompare false x y < 0 ↔ x.width.getD 0 > y.width.getD 0) := by
  obtain ⟨hxw, hxh⟩ := hx
  obtain ⟨hyw, hyh⟩ := hy
  by_cases hgt : x.width.getD 0 > y.width.getD 0
  · simp [srcCompare, srcDescription, hxw, hyw, hxh, hyh, truthyN_none_eq, hgt]
  · by_cases hlt : x.width.getD 0 < y.width.getD 0
    · simp [srcCompare, srcDescription, hxw, hyw, hxh, hyh, truthyN_none_eq, hgt, hlt]
    · simp [srcCompare, srcDescription, hxw, hyw, hxh, hyh, truthyN_none_eq, hgt, hlt]

/-- Membership after stable insertion: the inserted element or an original
resident. -/
theorem jsInsert_mem_iff {α : Type} (cmp : α → α → Int) (x z : α) (l : List α) :
    z ∈ jsInsert cmp x l ↔ z = x ∨ z ∈ l := by
  induction l with
  | nil => simp [jsInsert]
  | cons y ys ih =>
    by_cases hc : cmp x y < 0
    · simp [jsInsert, hc]
    · simp [jsInsert, hc, ih]
      tauto

/-- Stable insertion with the source comparator preserves the
descending-width ordering on width-only entries. -/
theorem jsInsert_pairwise_width (x : SrcEntry) (hx : goodW x) :
    ∀ l : List SrcEntry, (∀ z ∈ l, goodW z) →
      l.Pairwise (fun a b => a.width.getD 0 ≥ b.width.getD 0) →
      (jsInsert (srcCompare false) x l).Pairwise (fun a b => a.width.getD 0 ≥ b.width.getD 0) := by
  intro l
  induction l with
  | nil =>
    intro _ _
    simp [jsInsert]
  | cons y ys ih =>
    intro hl hp
    have hy : goodW y := hl y (List.mem_cons_self y ys)
    have hys : ∀ z ∈ ys, goodW z := fun z hz => hl z (List.mem_cons_of_mem y hz)
    obtain ⟨hyR, hpys⟩ := List.pairwise_cons.mp hp
    by_cases hc : srcCompare false x y < 0
    · have hgt : x.width.getD 0 > y.width.getD 0 := (srcCompare_lt_iff x y hx hy).mp hc
      simp only [jsInsert, if_pos hc]
      refine List.pairwise_cons.mpr ⟨?_, hp⟩
      intro z hz
      rcases List.mem_cons.mp hz with hzy | hzys
      · rw [hzy]
        exact Nat.le_of_lt hgt
      · exact le_trans (hyR z hzys) (Nat.le_of_lt hgt)
    · have hle : x.width.getD 0 ≤ y.width.getD 0 := by
        have := (srcCompare_lt_iff x y hx hy).not.mp hc
        omega
      simp only [jsInsert, if_neg hc]
      refine List.pairwise_cons.mpr ⟨?_, ih hys hpys⟩
      intro z hz
      rcases (jsInsert_mem_iff (srcCompare false) x z ys).mp hz with hzx | hzys
      · rw [hzx]
        exact hle
      · exact hyR z hzys

/-- Left fold of stable insertions preserves the descending-width ordering
on width-only entries. -/
theorem jsArraySort_pairwise_aux :
    ∀ l acc : List SrcEntry, (∀ z ∈ l, goodW z) → (∀ z ∈ acc, goodW z) →
      acc.Pairwise (fun a b => a.width.getD 0 ≥ b.width.getD 0) →
      (l.foldl (fun a x => jsInsert (srcCompare false) x a) acc).Pairwise
        (fun a b => a.width.getD 0 ≥ b.width.getD 0) := by
  intro l
  induction l with
  | nil =>
    intro acc _ _ hp
    simpa using hp
  | cons x xs ih =>
    intro acc hl hacc hp
    have hx : goodW x := hl x (List.mem_cons_self x xs)
    have hxs : ∀ z ∈ xs, goodW z := fun z hz => hl z (List.mem_cons_of_mem x hz)
    have hacc2 : ∀ z ∈ jsInsert (srcCompare false) x acc, goodW z := by
      intro z hz
      rcases (jsInsert_mem_iff (srcCompare false) x z acc).mp hz with hzx | hza
      · rw [hzx]; exact hx
      · exact hacc z hza
    simp only [List.foldl_cons]
    exact ih (jsInsert (srcCompare false) x acc) hxs hacc2
      (jsInsert_pairwise_width x hx acc hacc hp)

/-- C1 counterexample: on the worked example of the claim the extractor
returns the entries ordered b.jpg, a.jpg, c.jpg — the fallback entry comes
last, not first — so the claimed order c.jpg, b.jpg, a.jpg is wrong.  The
comparator's fallback rule reads a description property that the entries
never carry (they carry descriptor), so it never fires, and the stable
sort leaves the descriptor-less entry in place. -/
theorem extractSourceSet_example_counterexample :
    extractSourceSet "a.jpg 480w, b.jpg 800w, c.jpg" none false false =
      some (SrcOutput.urls [some "b.jpg", some "a.jpg", some "c.jpg"]) ∧
    extractSourceSet "a.jpg 480w, b.jpg 800w, c.jpg" none false false ≠
      some (SrcOutput.urls [some "c.jpg", some "b.jpg", some "a.jpg"]) := by
  constructor
  · decide
  · decide

/-- C1 amended: entries carrying only width descriptors are sorted by
descending width; the fallback-first rule is inoperative (the comparator
reads an absent description property), so entries without width or height
compare equal to everything and keep their stable-sort position, and the
worked example comes out b.jpg (800w), a.jpg (480w), c.jpg (fallback). -/
theorem extractSourceSet_ordering (ss : String) (origin : Option String)
    (h : ∀ e ∈ srcEntries ss origin, goodW e) :
    (extractSourceSetSources ss origin false).Pairwise
      (fun a b => a.width.getD 0 ≥ b.width.getD 0) := by
  unfold extractSourceSetSources jsArraySort
  exact jsArraySort_pairwise_aux (srcEntries ss origin) [] h (by simp) (by simp)

/-- C1 witness: the amended ordering evaluated on a two-candidate source
set with width descriptors only. -/
theorem extractSourceSet_ordering_witness :
    (∀ e ∈ srcEntries "a.jpg 480w, b.jpg 800w" none, goodW e) ∧
    (extractSourceSetSources "a.jpg 480w, b.jpg 800w" none false).Pairwise
      (fun a b => a.width.getD 0 ≥ b.width.getD 0) :=
  ⟨by decide, extractSourceSet_ordering "a.jpg 480w, b.jpg 800w" none (by decide)⟩

/-- Query-option object with the keys the claims exercise; a none field is
an absent key.  The source option key named attribute is rendered here as
attributeOpt. -/
structure QOpts where
  trim : Option Bool := none
  filter : Option Bool := none
  attr : Option String := none
  attributeOpt : Option String := none
  forceGetAttribute : Option Bool := none
  origin : Option String := none
  deriving DecidableEq

/-- Object-spread merge of two option objects: keys present in the second
override the first. -/
def qMerge (a b : QOpts) : QOpts where
  trim := mergeField a.trim b.trim
  filter := mergeField a.filter b.filter
  attr := mergeField a.attr b.attr
  attributeOpt := mergeField a.attributeOpt b.attributeOpt
  forceGetAttribute := mergeField a.forceGetAttribute b.forceGetAttribute
  origin := mergeField a.origin b.origin

/-- Effective options of queryContent (part_000 lines 178-183): the spread
of the context options, then the literal built-in trim default, then the
call-site custom options. -/
def queryContentOptions (ctx custom : QOpts) : QOpts :=
  qMerge (qMerge ctx { trim := some true }) custom

/-- Effective options of queryContents (part_000 lines 190-196): context
options, then the built-in trim and filter defaults, then custom options. -/
def queryContentsOptions (ctx custom : QOpts) : QOpts :=
  qMerge (qMerge ctx { trim := some true, filter := some true }) custom

/-- Effective options of queryUrl (part_000 lines 407-413): context
options, then the built-in href attribute and forceGetAttribute defaults,
then custom options. -/
def queryUrlOptions (ctx custom : QOpts) : QOpts :=
  qMerge (qMerge ctx { attributeOpt := some "href", forceGetAttribute := some true }) custom

/-- C3 counterexample: a context initialized with trim disabled is
overridden by the content operation's built-in trim default, because the
built-in default is spread after the context options; so the claimed
precedence of context over built-in defaults fails. -/
theorem queryContent_trim_counterexample :
    (queryContentOptions { trim := some false } {}).trim = some true ∧
    (queryContentOptions { trim := some false } {}).trim ≠ some false := by
  constructor
  · rfl
  · decide

/-- C3 amended: the effective precedence is context-level options, then the
operation's built-in defaults, then call-site custom options — for each
key carrying a built-in default the resolved value is the custom value when
present and otherwise the built-in default, with the context value
surviving only for keys that have no built-in default. -/
theorem queryOptions_precedence (ctx custom : QOpts) :
    (queryContentOptions ctx custom).trim = mergeField (some true) custom.trim ∧
    (queryContentOptions ctx custom).attributeOpt = mergeField ctx.attributeOpt custom.attributeOpt ∧
    (queryUrlOptions ctx custom).attributeOpt = mergeField (some "href") custom.attributeOpt ∧
    (queryUrlOptions ctx custom).forceGetAttribute = mergeField (some true) custom.forceGetAttribute ∧
    (queryUrlOptions ctx custom).origin = mergeField ctx.origin custom.origin := by
  obtain ⟨t, fl, a1, a2, fg, o⟩ := custom
  refine ⟨?_, ?_, ?_, ?_, ?_⟩
  · cases t <;> rfl
  · cases a2 <;> rfl
  · cases a2 <;> rfl
  · cases fg <;> rfl
  · cases o <;> rfl

/-- Element as the attribute-extraction path of the query engine sees it: a
property map (the live DOM properties), an attribute map (the literal
markup attributes) and the text content.  Selector resolution against the
DOM collaborator is abstracted by handing the functions the list of
elements the selector matches. -/
structure Element where
  props : List (String × String) := []
  attrs : List (String × String) := []
  textContent : String := ""
  deriving DecidableEq

/-- Read of a markup attribute, the getAttribute collaborator call. -/
def getAttributeOf (el : Element) (key : String) : Option String :=
  el.attrs.lookup key

/-- Read of a live DOM property by name. -/
def propOf (el : Element) (key : String) : Option String :=
  el.props.lookup key

/-- Embedding of the source function getAttributeKey (part_000 lines
135-149): the attr key wins over the attribute key; a key present with a
nullish value is modelled as absent. -/
def getAttributeKey (o : QOpts) : Option String :=
  match o.attr with
  | some v => some v
  | none => o.attributeOpt

/-- Embedding of the source function extractContent (part_000 lines
151-176): with a truthy attribute key, read the property (unless
forceGetAttribute) falling back to the raw attribute, trimming truthy
values when trim is set; otherwise return the (optionally trimmed) text
content. -/
def extractContent (options : QOpts) (element : Option Element) : Option String :=
  match element with
  | none => none
  | some el =>
    let key := getAttributeKey options
    if truthyStr key then
      let attributeVal :=
        if truthyB options.forceGetAttribute then getAttributeOf el (key.getD "")
        else jsOrStr (propOf el (key.getD "")) (getAttributeOf el (key.getD ""))
      if truthyStr attributeVal && truthyB options.trim then some (jsTrim (attributeVal.getD ""))
      else attributeVal
    else if truthyB options.trim then some (jsTrim el.textContent)
    else some el.textContent

/-- Embedding of queryContent over the resolved element list: singular
queries take the first match (queryElement), then extract. -/
def queryContentE (ctxOpts : QOpts) (elems : List Element) (custom : QOpts) : Option String :=
  extractContent (queryContentOptions ctxOpts custom) elems.head?

/-- Embedding of queryContents over the resolved element list: extraction
per element, then the truthiness filter unless disabled. -/
def queryContentsE (ctxOpts : QOpts) (elems : List Element) (custom : QOpts) : List (Option String) :=
  let options := queryContentsOptions ctxOpts custom
  let extracted := elems.map (fun e => extractContent options (some e))
  if truthyB options.filter then extracted.filter truthyStr else extracted

/-- Embedding of queryAttribute (part_000 lines 208-213): queryContent with
the attribute key spread over the custom options. -/
def queryAttributeE (ctxOpts : QOpts) (elems : List Element) (key : String) (custom : QOpts) : Option String :=
  queryContentE ctxOpts elems { custom with attributeOpt := some key }

/-- Embedding of queryAttributes (part_000 lines 215-220). -/
def queryAttributesE (ctxOpts : QOpts) (elems : List Element) (key : String) (custom : QOpts) : List (Option String) :=
  queryContentsE ctxOpts elems { custom with attributeOpt := some key }

/-- Embedding of the source function getImageUrl (part_000 lines 433-442):
an explicit attribute option wins, otherwise data-src with a truthiness
fallback to src. -/
def getImageUrl (ctxOpts : QOpts) (elems : List Element) (options : QOpts) : Option String :=
  let attributeKey := getAttributeKey options
  if truthyStr attributeKey then
    queryAttributeE ctxOpts elems (attributeKey.getD "") options
  else
    jsOrStr (queryAttributeE ctxOpts elems "data-src" options)
      (queryAttributeE ctxOpts elems "src" options)

/-- Condition guarding the data-src branch of getImageUrls: the source
tests dataLinks.lenght, a misspelling of length, so it reads an absent
property; undefined compared with a number is always false. -/
def jsUndefGtZero : Bool :=
  false

/-- Embedding of the source function getImageUrls (part_000 lines 444-458):
an explicit attribute option wins; otherwise the data-src links are
computed but returned only under the jsUndefGtZero guard, so the src
attributes are always used. -/
def getImageUrls (ctxOpts : QOpts) (elems : List Element) (options : QOpts) : List (Option String) :=
  let attributeKey := getAttributeKey options
  if truthyStr attributeKey then
    queryAttributesE ctxOpts elems (attributeKey.getD "") options
  else
    let dataLinks := queryAttributesE ctxOpts elems "data-src" options
    if jsUndefGtZero then dataLinks else queryAttributesE ctxOpts elems "src" options

/-- Test element for the image-attribute precedence claim: a lazy-load
image whose markup carries both data-src and src. -/
def imgTestElement : Element :=
  { attrs := [("data-src", "lazy.jpg"), ("src", "eager.jpg")] }

/-- C4: the singular image operation honors the claimed precedence and
returns the data-src value, the data-src attributes of the element list
are non-empty, yet the plural images operation returns the src values —
the dataLinks branch is dead because the source misspells length as
lenght, so the claimed data-src precedence fails for the plural
operation. -/
theorem getImageUrls_lenght_bug :
    getImageUrl {} [imgTestElement] { forceGetAttribute := some true } = some "lazy.jpg" ∧
    queryAttributesE {} [imgTestElement] "data-src" { forceGetAttribute := some true } = [some "lazy.jpg"] ∧
    getImageUrls {} [imgTestElement] { forceGetAttribute := some true } = [some "eager.jpg"] := by
  refine ⟨?_, ?_, ?_⟩
  · decide
  · decide
  · decide

/-- Error value as raised by handleError: the original message with the
code attached by Object.assign. -/
structure JsError where
  code : String
  message : String
  deriving DecidableEq

/-- Transport-level response as the tail of the request function sees it
after awaiting the body text. -/
structure TransportRes where
  status : Nat
  statusText : String
  locationHeader : Option String := none
  headers : List (String × String) := []
  bodyText : String := ""
  deriving DecidableEq

/-- Response envelope returned by request; on the success path this models
the base object of curateResponse (the JSON re-parse and the DOM extraction
refine only the data and context fields through external collaborators and
never change the ok flag or the diagnostic fields). -/
structure Envelope where
  ok : Bool
  status : Option Nat
  statusText : String
  headers : List (String × String)
  bodyData : Option String := none
  deriving DecidableEq

/-- Outcome of the tail of the request function: follow a redirect by
re-issuing the request, raise the annotated error, or return an envelope. -/
inductive ReqOutcome where
  | redirect (location : String)
  | raised (e : JsError)
  | done (env : Envelope)
  deriving DecidableEq

/-- Message of the HTTP_NOT_OK error, exactly as the source templates it. -/
def httpNotOkMessage (url : String) (status : Nat) (statusText bodyData : String) : String :=
  s!"HTTP response from {url} not OK ({status} {statusText}): {bodyData}"

/-- Redirect statuses the request interface follows manually. -/
def redirectStatuses : List Nat :=
  [301, 302, 303, 307, 308]

/-- Manual-redirect condition of request (part_000 lines 1447-1452): only
the lower-level request interface follows redirects itself. -/
def requestRedirectCond (iface : String) (followRedirects : Bool)
    (maxRedirects redirects : Nat) (res : TransportRes) : Bool :=
  (iface == "request") && redirectStatuses.contains res.status &&
    truthyStr res.locationHeader && followRedirects && decide (redirects < maxRedirects)

/-- Embedding of the tail of the source function request (part_000 lines
1444-1488), from the computed status to the returned value: the manual
redirect re-issue, then on a non-2xx status handleError with code
HTTP_NOT_OK — raising when the global throwErrors is set, otherwise
logging — followed by the ok:false envelope, and otherwise the ok:true
curated response. -/
def requestTail (throwErrors : Bool) (iface : String) (followRedirects : Bool)
    (maxRedirects redirects : Nat) (url : String) (res : TransportRes) : ReqOutcome :=
  if requestRedirectCond iface followRedirects maxRedirects redirects res then
    ReqOutcome.redirect (res.locationHeader.getD "")
  else if 200 ≤ res.status ∧ res.status < 300 then
    ReqOutcome.done
      { ok := true, status := some res.status, statusText := res.statusText,
        headers := res.headers, bodyData := some res.bodyText }
  else if throwErrors then
    ReqOutcome.raised
      { code := "HTTP_NOT_OK",
        message := httpNotOkMessage url res.status res.statusText res.bodyText }
  else
    ReqOutcome.done
      { ok := false, status := some res.status, statusText := res.statusText,
        headers := res.headers }

/-- C2: outside the manual-redirect case, a non-2xx response never raises
when throwErrors is false — it returns an ok:false envelope carrying the
status, status text and headers — and always raises when throwErrors is
true, the raised error being tagged HTTP_NOT_OK with a message embedding
the same url, status, status text and response body. -/
theorem request_non2xx_policy (iface : String) (followRedirects : Bool)
    (maxRedirects redirects : Nat) (url : String) (res : TransportRes)
    (hstatus : ¬(200 ≤ res.status ∧ res.status < 300))
    (hredir : requestRedirectCond iface followRedirects maxRedirects redirects res = false) :
    requestTail false iface followRedirects maxRedirects redirects url res =
      ReqOutcome.done
        { ok := false, status := some res.status, statusText := res.statusText,
          headers := res.headers } ∧
    requestTail true iface followRedirects maxRedirects redirects url res =
      ReqOutcome.raised
        { code := "HTTP_NOT_OK",
          message := httpNotOkMessage url res.status res.statusText res.bodyText } := by
  constructor
  · simp [requestTail, hredir, hstatus]
  · simp [requestTail, hredir, hstatus]

/-- Transport response used to witness the non-2xx policy. -/
def c2TestRes : TransportRes :=
  { status := 404, statusText := "Not Found",
    headers := [("content-type", "text/html")], bodyText := "missing" }

/-- C2 witness: the policy evaluated on a 404 response over the default
fetch interface. -/
theorem request_non2xx_policy_witness :
    (¬(200 ≤ c2TestRes.status ∧ c2TestRes.status < 300)) ∧
    (requestRedirectCond "fetch" true 3 0 c2TestRes = false) ∧
    (requestTail false "fetch" true 3 0 "https://example.com/a" c2TestRes =
      ReqOutcome.done
        { ok := false, status := some c2TestRes.status, statusText := c2TestRes.statusText,
          headers := c2TestRes.headers } ∧
     requestTail true "fetch" true 3 0 "https://example.com/a" c2TestRes =
      ReqOutcome.raised
        { code := "HTTP_NOT_OK",
          message := httpNotOkMessage "https://example.com/a" c2TestRes.status
            c2TestRes.statusText c2TestRes.bodyText }) :=
  ⟨by decide, by decide,
    request_non2xx_policy "fetch" true 3 0 "https://example.com/a" c2TestRes
      (by decide) (by decide)⟩

/-- Date-extraction options: the match pattern, the match index and the
timezone.  A regular expression option value is the host regex engine's
global-match function (an oracle from the trimmed string to the list of
matches, none when nothing matches); the outer Option is key presence, the
inner Option models a nullified pattern, which sends extractDate down the
no-regex path. -/
structure DateOpts where
  dmatch : Option (Option (String → Option (List String))) := none
  matchIndex : Option Nat := none
  timezone : Option String := none

/-- Object-spread merge of two date-option objects. -/
def jsMergeDateOpts (a b : DateOpts) : DateOpts where
  dmatch := mergeField a.dmatch b.dmatch
  matchIndex := mergeField a.matchIndex b.matchIndex
  timezone := mergeField a.timezone b.timezone

/-- Result of date extraction: either the error policy raised the tagged
usage error, or a value (a parsed date from the moment collaborator,
abstracted as an integer timestamp, or null). -/
inductive DateOutcome where
  | raised (code : String)
  | val (d : Option Int)
  deriving DecidableEq

/-- Embedding of the source function extractDate (part_000 lines 729-758),
parametrized by the default date pattern defaultRe (the host regex engine
on the built-in expression) and by the moment-timezone parser oracle taking
the date stamp, the format and the timezone.  A falsy date string returns
null before anything else; a falsy format goes through handleError with
code NO_DATE_FORMAT, raising exactly when the global throwErrors is set;
otherwise the trimmed string is matched (or taken whole when the match
option is nullified), the match-array entry at matchIndex is parsed, and
any failure — no match, an out-of-range index, an invalid parse — yields
null. -/
def extractDate (defaultRe : String → Option (List String))
    (parse : String → String → String → Option Int)
    (throwErrors : Bool) (dateString : String) (format : Option String)
    (passed : DateOpts) : DateOutcome :=
  if dateString = "" then DateOutcome.val none
  else if truthyStr format = false then
    if throwErrors then DateOutcome.raised "NO_DATE_FORMAT" else DateOutcome.val none
  else
    let fmt := format.getD ""
    let effMatch := passed.dmatch.getD (some defaultRe)
    let idx := passed.matchIndex.getD 0
    let tz := passed.timezone.getD "UTC"
    match effMatch with
    | some re =>
      match re (jsTrim dateString) with
      | none => DateOutcome.val none
      | some arr =>
        match arr[idx]? with
        | none => DateOutcome.val none
        | some stamp =>
          match parse stamp fmt tz with
          | none => DateOutcome.val none
          | some d => DateOutcome.val (some d)
    | none =>
      let stamp := jsTrim dateString
      if stamp = "" then DateOutcome.val none
      else
        match parse stamp fmt tz with
        | none => DateOutcome.val none
        | some d => DateOutcome.val (some d)

/-- C9: on a non-empty date string, a missing (or empty, hence falsy)
format engages the configurable error policy — raising the NO_DATE_FORMAT
usage error exactly when throwErrors is set, otherwise returning null —
while a supplied truthy format never raises, whatever the match and parse
oracles do; in particular when the parser fails on everything the result
is null without engaging the policy. -/
theorem extractDate_format_policy (defaultRe : String → Option (List String))
    (parse : String → String → String → Option Int)
    (throwErrors : Bool) (dateString : String) (passed : DateOpts)
    (hds : dateString ≠ "") :
    (extractDate defaultRe parse throwErrors dateString none passed =
      (if throwErrors then DateOutcome.raised "NO_DATE_FORMAT" else DateOutcome.val none)) ∧
    (∀ fmt : String, fmt ≠ "" → ∀ c : String,
      extractDate defaultRe parse throwErrors dateString (some fmt) passed ≠
        DateOutcome.raised c) ∧
    (∀ fmt : String, fmt ≠ "" → (∀ s f t, parse s f t = none) →
      extractDate defaultRe parse throwErrors dateString (some fmt) passed =
        DateOutcome.val none) := by
  refine ⟨?_, ?_, ?_⟩
  · simp [extractDate, hds, truthyStr]
  · intro fmt hfmt c
    simp only [extractDate, if_neg hds]
    have ht : truthyStr (some fmt) = true := by simp [truthyStr, hfmt]
    rw [ht]
    simp only [Bool.true_eq_false, if_false]
    cases hm : passed.dmatch.getD (some defaultRe) with
    | some re =>
      cases hre : re (jsTrim dateString) with
      | none => simp [hre]
      | some arr =>
        cases hg : arr[passed.matchIndex.getD 0]? with
        | none => simp [hre, hg]
        | some stamp =>
          cases hp : parse stamp fmt (passed.timezone.getD "UTC") with
          | none => simp [hre, hg, hp]
          | some d => simp [hre, hg, hp]
    | none =>
      by_cases hstamp : jsTrim dateString = ""
      · simp [hstamp]
      · cases hp : parse (jsTrim dateString) fmt (passed.timezone.getD "UTC") with
        | none => simp [hstamp, hp]
        | some d => simp [hstamp, hp]
  · intro fmt hfmt hparse
    simp only [extractDate, if_neg hds]
    have ht : truthyStr (some fmt) = true := by simp [truthyStr, hfmt]
    rw [ht]
    simp only [Bool.true_eq_false, if_false]
    cases hm : passed.dmatch.getD (some defaultRe) with
    | some re =>
      cases hre : re (jsTrim dateString) with
      | none => simp [hre]
      | some arr =>
        cases hg : arr[passed.matchIndex.getD 0]? with
        | none => simp [hre, hg]
        | some stamp => simp [hre, hg, hparse]
    | none =>
      by_cases hstamp : jsTrim dateString = ""
      · simp [hstamp]
      · simp [hstamp, hparse]

/-- C9 witness: the policy evaluated on a concrete date string with a
nowhere-matching default pattern and an always-failing parser. -/
theorem extractDate_format_policy_witness :
    ("January 1, 1970" ≠ "") ∧
    extractDate (fun _ => none) (fun _ _ _ => none) true "January 1, 1970" none {} =
      DateOutcome.raised "NO_DATE_FORMAT" ∧
    (∀ c : String,
      extractDate (fun _ => none) (fun _ _ _ => none) true "January 1, 1970"
        (some "MMM D, YYYY") {} ≠ DateOutcome.raised c) ∧
    extractDate (fun _ => none) (fun _ _ _ => none) true "January 1, 1970"
      (some "MMM D, YYYY") {} = DateOutcome.val none := by
  have h := extractDate_format_policy (fun _ => none) (fun _ _ _ => none) true
    "January 1, 1970" {} (by decide)
  refine ⟨by decide, ?_, ?_, ?_⟩
  · simpa using h.1
  · exact fun c => h.2.1 "MMM D, YYYY" (by decide) c
  · exact h.2.2 "MMM D, YYYY" (by decide) (fun s f t => rfl)

/-- Embedding of the source function queryDate (part_000 lines 760-767):
the gathered content string (abstracted, since selector resolution is the
DOM collaborator) is parsed with the spread of the context options under
the call-site custom options. -/
def queryDateE (defaultRe : String → Option (List String))
    (parse : String → String → String → Option Int) (throwErrors : Bool)
    (ctxOpts customOpts : DateOpts) (dateString : String) (format : Option String) : DateOutcome :=
  extractDate defaultRe parse throwErrors dateString format (jsMergeDateOpts ctxOpts customOpts)

/-- Embedding of the source function queryDates (part_000 lines 769-776).
The source passes the object written as the spread of the context options
plus a property literally named customOptions — a shorthand property, not
a spread — so extractDate, which consults only the match, matchIndex and
timezone keys, receives exactly the context options and the inert nested
property; the call-site custom options therefore never reach the parsing
step.  The string-gathering step, which does receive the custom options,
is abstracted as the dateStrings input. -/
def queryDatesE (defaultRe : String → Option (List String))
    (parse : String → String → String → Option Int) (throwErrors : Bool)
    (ctxOpts _customOpts : DateOpts) (dateStrings : List String) (format : Option String) :
    List DateOutcome :=
  dateStrings.map (fun s => extractDate defaultRe parse throwErrors s format ctxOpts)

/-- C10: the plural dates operation parses with the context options alone —
two different call-site custom option objects give identical parse results
on every input — whereas the singular date operation does apply call-site
custom options to parsing, witnessed by a timezone-sensitive parser that
distinguishes a custom Asia/Tokyo timezone from the UTC default. -/
theorem queryDates_ignores_custom_options (defaultRe : String → Option (List String))
    (parse : String → String → String → Option Int) (throwErrors : Bool)
    (ctxOpts c1 c2 : DateOpts) (dateStrings : List String) (format : Option String) :
    queryDatesE defaultRe parse throwErrors ctxOpts c1 dateStrings format =
      queryDatesE defaultRe parse throwErrors ctxOpts c2 dateStrings format ∧
    queryDateE (fun s => some [s]) (fun _ _ tz => if tz = "UTC" then none else some 1) false
        {} { timezone := some "Asia/Tokyo" } "1970-01-01" (some "YYYY-MM-DD") ≠
      queryDateE (fun s => some [s]) (fun _ _ tz => if tz = "UTC" then none else some 1) false
        {} {} "1970-01-01" (some "YYYY-MM-DD") := by
  constructor
  · rfl
  · decide

/-- Result of the navigation step of browserRequest: the page.goto promise
either rejects — the catch turns the error into a value — or resolves with
an HTTP status and status text. -/
inductive BrowserNav where
  | navError (name : String)
  | http (status : Nat) (statusText : String)
  deriving DecidableEq

/-- Envelope fields of the browser-mode response the claims inspect. -/
structure BrowserEnv where
  ok : Bool
  status : Option Nat := none
  statusText : String := ""
  controlError : Option String := none
  deriving DecidableEq

/-- Outcome of the browser request body: an exception escaping the limiter
callback (handleError raising on a non-2xx status) or a returned
envelope. -/
inductive BrowserOutcome where
  | raised (code : String)
  | env (e : BrowserEnv)
  deriving DecidableEq

/-- State left behind by one browser request: the client's active-request
count and whether closeBrowser closed the underlying browser. -/
structure BrowserRunResult where
  activeAfter : Nat
  closedBrowser : Bool
  outcome : BrowserOutcome
  deriving DecidableEq

/-- Embedding of the source function closeBrowser (part_000 lines
1190-1196): the browser is closed when the request opted out of pooling
(client null, single use) or when the client is retired with no active
requests left. -/
def closeBrowserCond (clientNull retired : Bool) (active : Nat) : Bool :=
  clientNull || (retired && decide (active = 0))

/-- Embedding of the body of browserRequest (part_000 lines 1256-1367)
scheduled on the limiter, tracking the client state: the active count is
incremented after acquisition; a rejected navigation returns the ok:false
envelope with a null status without decrementing the count or closing the
browser; a non-2xx status runs handleError — raising out of the callback
when the global throwErrors is set, before the decrement — and otherwise
decrements and conditionally closes; a control callback that throws is
caught, decrementing and conditionally closing; the success path
decrements and conditionally closes after capturing the content.  The
control argument is none for no callback, some none for a callback that
returns, and some (some message) for one that throws. -/
def browserRequestRun (throwErrors clientNull retired : Bool) (active0 : Nat)
    (nav : BrowserNav) (control : Option (Option String)) : BrowserRunResult :=
  let active1 := active0 + 1
  match nav with
  | BrowserNav.navError name =>
    { activeAfter := active1, closedBrowser := false,
      outcome := BrowserOutcome.env { ok := false, status := none, statusText := name } }
  | BrowserNav.http status statusText =>
    if 200 ≤ status ∧ status < 300 then
      match control with
      | some (some errMessage) =>
        let active2 := active1 - 1
        { activeAfter := active2,
          closedBrowser := closeBrowserCond clientNull retired active2,
          outcome := BrowserOutcome.env
            { ok := false, status := some status, statusText := statusText,
              controlError := some errMessage } }
      | _ =>
        let active2 := active1 - 1
        { activeAfter := active2,
          closedBrowser := closeBrowserCond clientNull retired active2,
          outcome := BrowserOutcome.env
            { ok := true, status := some status, statusText := statusText } }
    else if throwErrors then
      { activeAfter := active1, closedBrowser := false,
        outcome := BrowserOutcome.raised "HTTP_NOT_OK" }
    else
      let active2 := active1 - 1
      { activeAfter := active2,
        closedBrowser := closeBrowserCond clientNull retired active2,
        outcome := BrowserOutcome.env
          { ok := false, status := some status, statusText := statusText } }

/-- C5 counterexample: a thrown navigation error returns ok:false but
leaves the active-request count incremented and the browser open — the
navigation-error branch returns before the decrement and the closeBrowser
call — so the claimed release-on-every-failure is violated. -/
theorem browserRequest_navError_leak_counterexample :
    (browserRequestRun false false false 0 (BrowserNav.navError "TimeoutError") none).outcome =
      BrowserOutcome.env { ok := false, status := none, statusText := "TimeoutError" } ∧
    (browserRequestRun false false false 0 (BrowserNav.navError "TimeoutError") none).activeAfter ≠ 0 ∧
    (browserRequestRun false false false 0 (BrowserNav.navError "TimeoutError") none).closedBrowser = false := by
  refine ⟨?_, ?_, ?_⟩
  · decide
  · decide
  · decide

/-- C5 amended: with the error policy left at its default (throwErrors
false), a non-2xx HTTP status and a control-callback error both restore
the active-request count to its pre-request value and close the browser
exactly when it is no longer reusable (single-use client, or retired with
no other active request); a thrown navigation error does not release the
handle, and with throwErrors set a non-2xx status raises before the
release. -/
theorem browserRequest_release (clientNull retired : Bool) (active0 : Nat)
    (status : Nat) (statusText : String) (control : Option (Option String)) :
    (¬(200 ≤ status ∧ status < 300) →
      (browserRequestRun false clientNull retired active0
          (BrowserNav.http status statusText) control).activeAfter = active0 ∧
      (browserRequestRun false clientNull retired active0
          (BrowserNav.http status statusText) control).closedBrowser =
        closeBrowserCond clientNull retired active0) ∧
    (∀ e : String, (200 ≤ status ∧ status < 300) →
      (browserRequestRun false clientNull retired active0
          (BrowserNav.http status statusText) (some (some e))).activeAfter = active0 ∧
      (browserRequestRun false clientNull retired active0
          (BrowserNav.http status statusText) (some (some e))).closedBrowser =
        closeBrowserCond clientNull retired active0 ∧
      (browserRequestRun false clientNull retired active0
          (BrowserNav.http status statusText) (some (some e))).outcome =
        BrowserOutcome.env
          { ok := false, status := some status, statusText := statusText,
            controlError := some e }) := by
  constructor
  · intro hs
    simp [browserRequestRun, hs]
  · intro e hs
    simp [browserRequestRun, hs]

/-- C5 witness: the amended release behavior evaluated on a 404 response
and on a throwing control callback after a 200 response. -/
theorem browserRequest_release_witness :
    (¬(200 ≤ 404 ∧ 404 < 300)) ∧
    (browserRequestRun false false false 0 (BrowserNav.http 404 "Not Found") none).activeAfter = 0 ∧
    (browserRequestRun false false false 0 (BrowserNav.http 404 "Not Found") none).closedBrowser =
      closeBrowserCond false false 0 ∧
    (browserRequestRun false false false 3 (BrowserNav.http 200 "OK") (some (some "boom"))).activeAfter = 3 :=
  ⟨by decide,
    ((browserRequest_release false false 0 404 "Not Found" none).1 (by decide)).1,
    ((browserRequest_release false false 0 404 "Not Found" none).1 (by decide)).2,
    ((browserRequest_release false false 3 200 "OK" none).2 "boom" (by decide)).1⟩

/-- Shared pool state for one scope key, plus the progress of two
concurrent first-time acquisitions.  JavaScript is single-threaded:
control changes hands only at an await, so getBrowserInstance (part_000
lines 1132-1184) decomposes into atomic blocks.  The synchronous prefix is
the registry lookup and, on a miss, starting the launch (incrementing the
launch count) and registering the client before any await — per the
source's comment that awaiting before registering would let a second call
launch another browser — or, on a hit, the uses increment with the
retirement check.  Everything after the prefix merely awaits the launch
promises or reads the client, leaving the registry and the launch count
unchanged, so those steps are no-ops on the shared state; each task is
therefore tracked by whether its prefix has run.  The registryUses field
is the registered client's uses counter, none when no client is
registered; the scope is truthy so registration happens. -/
structure PoolState where
  registryUses : Option Nat := none
  launches : Nat := 0
  started1 : Bool := false
  started2 : Bool := false
  deriving DecidableEq

/-- Default client retirement threshold of getBrowserInstance. -/
def clientRetirementDefault : Nat :=
  20

/-- Synchronous prefix of one acquisition: on a hit, bump the uses counter
and delete the client once the retirement threshold is reached; on a miss,
count a launch and register the fresh client (uses 1) immediately. -/
def acquirePrefix (s : PoolState) : Option Nat × Nat :=
  match s.registryUses with
  | some uses =>
    let uses2 := uses + 1
    if clientRetirementDefault ≤ uses2 then (none, s.launches) else (some uses2, s.launches)
  | none => (some 1, s.launches + 1)

/-- One scheduler step: the chosen task runs its next atomic block — its
synchronous prefix if it has not run yet, otherwise a no-op await. -/
def poolStep (s : PoolState) (task1 : Bool) : PoolState :=
  if task1 then
    if s.started1 then s
    else
      let r := acquirePrefix s
      { s with registryUses := r.fst, launches := r.snd, started1 := true }
  else
    if s.started2 then s
    else
      let r := acquirePrefix s
      { s with registryUses := r.fst, launches := r.snd, started2 := true }

/-- Execution of two concurrent first-time acquisitions under an arbitrary
schedule: each list entry names the task that runs next. -/
def poolRun (sched : List Bool) : PoolState :=
  sched.foldl poolStep {}

/-- Number of tasks whose synchronous prefix has run. -/
def startedCount (s : PoolState) : Nat :=
  (if s.started1 then 1 else 0) + (if s.started2 then 1 else 0)

/-- Pool invariant: the registered client's uses counter equals the number
of acquisitions that have run their prefix, and exactly one launch has
happened once any acquisition has started. -/
def PoolInv (s : PoolState) : Prop :=
  s.registryUses = (if startedCount s = 0 then none else some (startedCount s)) ∧
  s.launches = (if startedCount s = 0 then 0 else 1)

/-- Every scheduler step preserves the pool invariant. -/
theorem poolStep_inv (s : PoolState) (b : Bool) (h : PoolInv s) : PoolInv (poolStep s b) := by
  obtain ⟨hr, hl⟩ := h
  rcases s with ⟨reg, l, s1, s2⟩
  cases b <;> cases s1 <;> cases s2 <;>
    simp_all [poolStep, startedCount, PoolInv, acquirePrefix, clientRetirementDefault]

/-- A step never unstarts a task. -/
theorem poolStep_started_mono (s : PoolState) (b : Bool) :
    startedCount s ≤ startedCount (poolStep s b) := by
  rcases s with ⟨reg, l, s1, s2⟩
  cases b <;> cases s1 <;> cases s2 <;>
    simp [poolStep, startedCount]

/-- Folding steps from an invariant state keeps the invariant and never
loses started acquisitions. -/
theorem poolRun_aux (sched : List Bool) :
    ∀ s : PoolState, PoolInv s →
      PoolInv (sched.foldl poolStep s) ∧ startedCount s ≤ startedCount (sched.foldl poolStep s) := by
  induction sched with
  | nil =>
    intro s h
    exact ⟨h, Nat.le_refl _⟩
  | cons b rest ih =>
    intro s h
    have hstep := poolStep_inv s b h
    have hmono := poolStep_started_mono s b
    have hrest := ih (poolStep s b) hstep
    exact ⟨hrest.1, Nat.le_trans hmono hrest.2⟩

/-- C6: under every schedule in which at least one of two concurrent
first-time acquisitions for the same truthy scope key gets to run, exactly
one browser launch happens and the registry holds the shared client —
because the synchronous prefix registers the in-flight client before its
launch promise resolves, the second acquisition's prefix finds it and
reuses it instead of launching again. -/
theorem pool_single_launch (sched : List Bool) (h : sched ≠ []) :
    (poolRun sched).launches = 1 ∧ (poolRun sched).registryUses.isSome = true := by
  obtain ⟨b, rest, rfl⟩ := List.exists_cons_of_ne_nil h
  have hinv0 : PoolInv ({} : PoolState) := by constructor <;> rfl
  have hstep := poolStep_inv {} b hinv0
  have hone : startedCount (poolStep {} b) = 1 := by cases b <;> decide
  have haux := poolRun_aux rest (poolStep {} b) hstep
  have hge : 1 ≤ startedCount (rest.foldl poolStep (poolStep {} b)) := by
    rw [← hone]
    exact haux.2
  obtain ⟨hr, hl⟩ := haux.1
  have hne : startedCount (rest.foldl poolStep (poolStep {} b)) ≠ 0 := by omega
  have hrun : poolRun (b :: rest) = rest.foldl poolStep (poolStep {} b) := rfl
  rw [hrun, hl, hr]
  rw [if_neg hne, if_neg hne]
  exact ⟨rfl, rfl⟩

/-- C6 witness: a concrete interleaving of the two acquisitions. -/
theorem pool_single_launch_witness :
    (([true, false, true, false] : List Bool) ≠ []) ∧
    (poolRun [true, false, true, false]).launches = 1 ∧
    (poolRun [true, false, true, false]).registryUses.isSome = true :=
  ⟨by decide, (pool_single_launch [true, false, true, false] (by decide)).1,
    (pool_single_launch [true, false, true, false] (by decide)).2⟩

end Unprint
